/-
Verification of the lazy-meet recording pipeline.

The backend recordings router (Express + Prisma + S3-compatible blob store +
OpenAI clients) is shallowly embedded below. Persisted rows become a Lean
structure, the database a list of rows, the blob store a list of keys, and
every fallible external call (blob put, row create, temp-file unlink,
presigned-URL generation, transcription, summarization, row updates) is an
explicit outcome supplied through an environment record, so each run of the
handlers is a pure function of its inputs. The device-local storage module
(my-app/utils/storage.ts) is embedded the same way, with the AsyncStorage
item and the JSON codec made explicit.
-/
import Mathlib

/-- The four values ever written to the `status` column:
`'uploaded'`, `'processing'`, `'processed'`, `'failed'`. -/
inductive RecStatus
  | uploaded
  | processing
  | processed
  | failed
deriving DecidableEq, Repr

/-- Position of a status in the forward order
`uploaded → processing → {processed, failed}`; both terminal states share
the final rank. -/
def RecStatus.rank : RecStatus → Nat
  | .uploaded => 0
  | .processing => 1
  | .processed => 2
  | .failed => 2

/-- A persisted `recordings` row (Prisma model `Recording`). -/
structure Recording where
  id : String
  userId : String
  title : String
  summary : String
  transcription : String
  audioUrl : String
  duration : Int
  status : RecStatus
  createdAt : Nat
deriving DecidableEq, Repr

/-- Server-side persistent state: the blob store (set of stored keys) and the
`recordings` table. -/
structure ServerState where
  blobs : List String
  db : List Recording
deriving DecidableEq, Repr

/-- `recordings_pkey`: row ids are unique (PRIMARY KEY on `id`). -/
def dbIdsUnique (db : List Recording) : Prop :=
  (db.map Recording.id).Nodup

/-- Response of `GET /recordings/:id`. -/
inductive GetOneResponse
  | notFound
  | found (r : Recording)
deriving DecidableEq, Repr

/-- `router.get('/:id')`: `prisma.recording.findFirst({ where: { id, userId } })`,
404 when absent. -/
def getOne (db : List Recording) (uid rid : String) : GetOneResponse :=
  match db.find? (fun r => r.id = rid && r.userId = uid) with
  | none => .notFound
  | some r => .found r

/-- One element of the `GET /recordings` list: the Prisma `select` keeps only
`id`, `title`, `summary`, `audioUrl`, `duration`, `createdAt`. -/
structure ListEntry where
  id : String
  title : String
  summary : String
  audioUrl : String
  duration : Int
  createdAt : Nat
deriving DecidableEq, Repr

/-- The `select` projection of the list endpoint. -/
def listSelect (r : Recording) : ListEntry :=
  ⟨r.id, r.title, r.summary, r.audioUrl, r.duration, r.createdAt⟩

/-- `orderBy: { createdAt: 'desc' }` as a relation on rows. -/
def newestFirst (a b : Recording) : Prop :=
  b.createdAt ≤ a.createdAt

instance : DecidableRel newestFirst := fun _ _ => Nat.decLe _ _

instance : IsTotal Recording newestFirst :=
  ⟨fun a b => le_total b.createdAt a.createdAt⟩

instance : IsTrans Recording newestFirst :=
  ⟨fun _ _ _ h1 h2 => le_trans h2 h1⟩

/-- `router.get('/')`: `findMany({ where: { userId }, orderBy: { createdAt:
'desc' }, select: {...} })`. -/
def listRecordings (db : List Recording) (uid : String) : List ListEntry :=
  (List.insertionSort newestFirst (db.filter (fun r => r.userId = uid))).map listSelect

/-- Response of `DELETE /recordings/:id`. -/
inductive DeleteResponse
  | notFound
  | deleted
deriving DecidableEq, Repr

/-- `router.delete('/:id')`: `findFirst({ where: { id, userId } })`; 404 when
absent, otherwise `prisma.recording.delete({ where: { id } })`. The blob store
is untouched. -/
def deleteRecording (st : ServerState) (uid rid : String) :
    ServerState × DeleteResponse :=
  match st.db.find? (fun r => r.id = rid && r.userId = uid) with
  | none => (st, .notFound)
  | some _ => ({ st with db := st.db.filter (fun r => !(r.id = rid)) }, .deleted)

/-- The split class of `transcribedText.split(/[.!?]/)`. -/
def isSentenceEnd (c : Char) : Bool :=
  c = '.' || c = '!' || c = '?'

/-- JS `String.prototype.split` on a single-character class: splits at
every matching character; the result always has at least one (possibly
empty) piece, and `''.split` gives `['']`. -/
def splitChars (p : Char → Bool) : List Char → List (List Char)
  | [] => [[]]
  | c :: cs =>
    if p c then [] :: splitChars p cs
    else
      match splitChars p cs with
      | [] => [[c]]
      | h :: t => (c :: h) :: t

/-- JS `String.prototype.trim`: strip whitespace from both ends. -/
def trimChars (l : List Char) : List Char :=
  ((l.dropWhile Char.isWhitespace).reverse.dropWhile Char.isWhitespace).reverse

/-- String wrapper of `trimChars`. -/
def jsTrim (s : String) : String :=
  ⟨trimChars s.data⟩

/-- JS `substring(0, n)`: the first `n` characters. -/
def jsTake (s : String) (n : Nat) : String :=
  ⟨s.data.take n⟩

/-- `transcription.split(/[.!?]/)[0].trim()`: the trimmed first sentence. -/
def firstSentenceTrimmed (t : String) : String :=
  jsTrim ⟨(splitChars isSentenceEnd t.data).headD []⟩

/-- Backend title derivation (recordings router, background processor):
`transcribedText.split(/[.!?]/)[0].trim().substring(0, 100) || 'Untitled
Recording'`. -/
def backendTitle (transcribedText : String) : String :=
  let firstSentence := jsTake (firstSentenceTrimmed transcribedText) 100
  if firstSentence = "" then "Untitled Recording" else firstSentence

/-- Client-side `generateTitle(transcription, maxLength = 50)` from
my-app/utils/storage.ts. `today` stands for
`new Date().toLocaleDateString()`. -/
def generateTitle (transcription : String) (today : String)
    (maxLength : Nat := 50) : String :=
  if (jsTrim transcription).length = 0 then
    "Recording " ++ today
  else
    let firstSentence := firstSentenceTrimmed transcription
    if 0 < firstSentence.length ∧ firstSentence.length ≤ maxLength then
      firstSentence
    else
      jsTrim (jsTake transcription maxLength) ++ "..."

/-- The spec's stated title derivation, used to compare against the two
implementations: first sentence of the transcription (split on `.`, `!`,
`?`), trimmed, truncated to a bounded length, with a generic fallback
when the transcription is empty. -/
def specTitle (transcription : String) (bound : Nat) (fallback : String) : String :=
  if transcription = "" then fallback
  else jsTake (firstSentenceTrimmed transcription) bound

/-- The `audio` part of the multipart request (`req.file`). -/
structure UploadFile where
  originalname : String
deriving DecidableEq, Repr

/-- Outcomes of the external calls made by `router.post('/upload')`. -/
structure UploadEnv where
  /-- `Date.now()` used to build the blob key. -/
  timestamp : Nat
  /-- `path.extname(req.file.originalname)`; the empty string when the
  name has no extension (the code then falls back to `.m4a`). -/
  extnameResult : String
  /-- whether `s3Client.send(new PutObjectCommand(...))` succeeds. -/
  blobPutOk : Bool
  /-- `prisma.recording.create`: the fresh row id, or `none` when the
  call throws. -/
  createdId : Option String
  /-- `createdAt` assigned to the new row by the database. -/
  createdAt : Nat
  /-- whether `fs.unlinkSync(audioFilePath)` succeeds. -/
  unlinkOk : Bool
  /-- whether the compensating `status: 'failed'` update in the catch
  handler succeeds (its own failure is swallowed by `.catch`). -/
  markFailedOk : Bool
deriving Repr

/-- Outcomes of the external calls made by `processRecordingInBackground`. -/
structure BgEnv where
  /-- whether the `status: 'processing'` update succeeds. -/
  updProcessingOk : Bool
  /-- whether `getSignedUrl` succeeds. -/
  presignOk : Bool
  /-- the transcription text, or `none` when the fetch of the presigned
  URL or `openai.audio.transcriptions.create` throws. -/
  transcribeResult : Option String
  /-- `completion.choices[0].message.content` (which may be null, mapped
  to `''` by `|| ''`), or outer `none` when the chat call throws. -/
  summarizeResult : Option (Option String)
  /-- whether the final `status: 'processed'` update succeeds. -/
  updProcessedOk : Bool
  /-- whether the compensating `status: 'failed'` update in the catch
  handler succeeds (its own failure is swallowed by `.catch`). -/
  markFailedOk : Bool
deriving Repr

/-- Body of the success JSON sent by the upload route. -/
structure UploadOkBody where
  id : String
  title : String
  status : RecStatus
  audioUrl : String
  duration : Int
  createdAt : Nat
deriving DecidableEq, Repr

/-- The three responses the upload route can send. -/
inductive HttpResponse
  | ok (body : UploadOkBody)
  /-- 400 `'No audio file provided'`. -/
  | invalidInput
  /-- 500 `'Failed to upload audio'`. -/
  | uploadFailed
deriving DecidableEq, Repr

/-- Observable effects of a run, in the order they are performed. -/
inductive Event
  | blobPut (key : String)
  | rowCreate (id : String)
  | tempUnlink
  | respond (r : HttpResponse)
  | statusUpdate (id : String) (s : RecStatus)
  | presignCall (key : String)
  | transcribeCall
  | summarizeCall
deriving DecidableEq, Repr

/-- `prisma.recording.update({ where: { id }, data: { status } })`. -/
def dbSetStatus (db : List Recording) (rid : String) (s : RecStatus) :
    List Recording :=
  db.map fun r => if r.id = rid then { r with status := s } else r

/-- The final `prisma.recording.update` of the background processor:
`data: { title, summary, transcription, status: 'processed' }`. -/
def dbFinalize (db : List Recording) (rid title summary transcription : String) :
    List Recording :=
  db.map fun r =>
    if r.id = rid then
      { r with title := title, summary := summary,
               transcription := transcription, status := .processed }
    else r

/-- The catch handler of `processRecordingInBackground`: best-effort
`status: 'failed'` update, its own failure swallowed by `.catch`. -/
def bgCatch (benv : BgEnv) (db : List Recording) (recordingId : String)
    (evs : List Event) : List Recording × List Event :=
  if benv.markFailedOk then
    (dbSetStatus db recordingId .failed, evs ++ [.statusUpdate recordingId .failed])
  else (db, evs)

/-- `processRecordingInBackground(recordingId, fileName)`: set
`processing`, presign, transcribe, summarize, derive a title, finalize;
any thrown error lands in the catch handler. Returns the updated table
and the emitted events. -/
def processRecordingInBackground (benv : BgEnv) (db : List Recording)
    (recordingId fileName : String) : List Recording × List Event :=
  if !benv.updProcessingOk then
    bgCatch benv db recordingId []
  else
    let db1 := dbSetStatus db recordingId .processing
    let ev1 : List Event := [.statusUpdate recordingId .processing]
    if !benv.presignOk then bgCatch benv db1 recordingId ev1
    else
      let ev2 := ev1 ++ [.presignCall fileName]
      match benv.transcribeResult with
      | none => bgCatch benv db1 recordingId (ev2 ++ [.transcribeCall])
      | some transcribedText =>
        let ev3 := ev2 ++ [.transcribeCall]
        match benv.summarizeResult with
        | none => bgCatch benv db1 recordingId (ev3 ++ [.summarizeCall])
        | some content =>
          let summary := content.getD ""
          let title := backendTitle transcribedText
          let ev4 := ev3 ++ [.summarizeCall]
          if !benv.updProcessedOk then bgCatch benv db1 recordingId ev4
          else
            (dbFinalize db1 recordingId title summary transcribedText,
             ev4 ++ [.statusUpdate recordingId .processed])

/-- Result of one request to `POST /recordings/upload` (including, for a
full run, the detached background job's effects). -/
structure RunResult where
  state : ServerState
  events : List Event
  response : HttpResponse
  /-- id of the row created by this request, when one was created. -/
  created : Option String
deriving Repr

/-- The synchronous part of `router.post('/upload')`: validate the part,
write the blob, create the row with `status: 'uploaded'`, unlink the temp
file, respond; the catch handler unlinks, best-effort marks the row
failed when it exists, and responds 500. Returns the run result and the
dispatched background job `(recordingId, fileName)`, if reached. -/
def uploadHandler (env : UploadEnv) (st : ServerState) (uid : String)
    (file : Option UploadFile) (durationField : Option Nat) :
    RunResult × Option (String × String) :=
  match file with
  | none => (⟨st, [.respond .invalidInput], .invalidInput, none⟩, none)
  | some _ =>
    let duration : Int := (durationField.getD 0 : Nat)
    let fileExtension := if env.extnameResult = "" then ".m4a" else env.extnameResult
    let fileName := toString env.timestamp ++ fileExtension
    if !env.blobPutOk then
      (⟨st, [.tempUnlink, .respond .uploadFailed], .uploadFailed, none⟩, none)
    else
      let blobs1 := fileName :: st.blobs
      match env.createdId with
      | none =>
        (⟨⟨blobs1, st.db⟩,
          [.blobPut fileName, .tempUnlink, .respond .uploadFailed],
          .uploadFailed, none⟩, none)
      | some rid =>
        let row : Recording :=
          ⟨rid, uid, "Processing...", "", "", fileName, duration, .uploaded,
           env.createdAt⟩
        let db1 := row :: st.db
        if !env.unlinkOk then
          let mark :=
            if env.markFailedOk then
              (dbSetStatus db1 rid .failed, [Event.statusUpdate rid .failed])
            else (db1, [])
          (⟨⟨blobs1, mark.1⟩,
            [.blobPut fileName, .rowCreate rid, .tempUnlink] ++ mark.2 ++
              [.respond .uploadFailed],
            .uploadFailed, some rid⟩, none)
        else
          let body : UploadOkBody :=
            ⟨rid, "Processing...", .uploaded, fileName, duration, env.createdAt⟩
          (⟨⟨blobs1, db1⟩,
            [.blobPut fileName, .rowCreate rid, .tempUnlink, .respond (.ok body)],
            .ok body, some rid⟩,
           some (rid, fileName))

/-- A full run: the synchronous handler followed by the detached
background job it dispatched, if any. -/
def runUpload (env : UploadEnv) (benv : BgEnv) (st : ServerState) (uid : String)
    (file : Option UploadFile) (durationField : Option Nat) : RunResult :=
  let hr := uploadHandler env st uid file durationField
  match hr.2 with
  | none => hr.1
  | some job =>
    let bg := processRecordingInBackground benv hr.1.state.db job.1 job.2
    ⟨⟨hr.1.state.blobs, bg.1⟩, hr.1.events ++ bg.2, hr.1.response, hr.1.created⟩

/-- The sequence of values written to the `status` column of row `rid`
during a run. -/
def statusWrites (rid : String) (evs : List Event) : List RecStatus :=
  evs.filterMap fun e =>
    match e with
    | .statusUpdate i s => if i = rid then some s else none
    | _ => none

/-- The persisted status sequence of row `rid`: the `'uploaded'` it is
created with, followed by every later write. -/
def statusHistory (rid : String) (evs : List Event) : List RecStatus :=
  .uploaded :: statusWrites rid evs

/-- The `Recording` interface of my-app/utils/storage.ts (device-local;
`createdAt` is a string there). -/
structure LocalRecording where
  id : String
  title : String
  summary : String
  transcription : String
  audioUrl : String
  duration : Int
  createdAt : String
deriving DecidableEq, Repr

/-- The JSON runtime used by the storage module: `JSON.stringify` on a
recording list and `JSON.parse` (which may throw, hence `Option`). -/
structure Codec where
  stringify : List LocalRecording → String
  parse : String → Option (List LocalRecording)

/-- The device key-value store as seen through
`AsyncStorage.getItem('@recordings')`: the read either throws, returns
null (no entry), or returns the stored string. -/
structure DeviceStore where
  item : Except Unit (Option String)
deriving Repr

/-- `getRecordings()`: read the entry; `recordingsJson ?
JSON.parse(recordingsJson) : []`, with every thrown error caught and
mapped to `[]`. Note `''` is falsy in JS, so an empty stored string also
yields `[]`. -/
def getRecordings (c : Codec) (st : DeviceStore) : List LocalRecording :=
  match st.item with
  | .error _ => []
  | .ok none => []
  | .ok (some s) =>
    if s = "" then []
    else
      match c.parse s with
      | none => []
      | some l => l

/-- `saveRecording(recording)`: read the current list, `unshift` the new
recording, `setItem` the serialized list; a `setItem` failure is
rethrown. -/
def saveRecording (c : Codec) (setItemOk : Bool) (st : DeviceStore)
    (recording : LocalRecording) : Except Unit DeviceStore :=
  let recordings := recording :: getRecordings c st
  if setItemOk then .ok ⟨.ok (some (c.stringify recordings))⟩
  else .error ()

/-- A 60-character punctuation-free transcription, longer than
`generateTitle`'s default 50-character bound. -/
def longSixty : String := String.mk (List.replicate 60 'a')

/-- Witness fixture: an upload environment in which every external call
succeeds and the database assigns id `r1`. -/
def envAllOk : UploadEnv := ⟨1700000000000, ".m4a", true, some "r1", 42, true, true⟩

/-- Witness fixture: an upload environment whose blob write fails. -/
def envBlobFail : UploadEnv := ⟨1700000000000, ".m4a", false, some "r1", 42, true, true⟩

/-- Witness fixture: an upload environment whose row creation fails. -/
def envCreateFail : UploadEnv := ⟨1700000000000, ".m4a", true, none, 42, true, true⟩

/-- Witness fixture: a background environment in which every call
succeeds. -/
def bgAllOk : BgEnv := ⟨true, true, some "Hello there. This is a test.", some (some "a summary"), true, true⟩

/-- Witness fixture: a background environment whose transcription call
throws. -/
def bgTranscribeFail : BgEnv := ⟨true, true, none, some (some "a summary"), true, true⟩

/-- Witness fixture: the empty server state. -/
def st0 : ServerState := ⟨[], []⟩

/-- Witness fixture: an uploaded multipart audio part. -/
def fileW : UploadFile := ⟨"meeting.m4a"⟩

/-- Witness fixture: a row owned by user `u1`. -/
def rowW : Recording := ⟨"r1", "u1", "Processing...", "", "", "1.m4a", 5, .uploaded, 42⟩

/-- Witness fixture: a row owned by user `u2`. -/
def rowW2 : Recording := ⟨"r2", "u2", "Other", "", "", "2.m4a", 7, .processed, 43⟩

/-- Witness fixture: a server state holding one row of each of two users. -/
def stTwo : ServerState := ⟨["1.m4a", "2.m4a"], [rowW, rowW2]⟩

/-- Witness fixture: a device-local recording. -/
def localRecW : LocalRecording := ⟨"l1", "Title", "Sum", "Tr", "url", 3, "2026-01-01"⟩

/-- Witness fixture: a codec whose parse inverts its stringify on the
single list the witness stores. -/
def codecW : Codec := ⟨fun _ => "x", fun _ => some [localRecW]⟩

/-- Witness fixture: a device store with no `@recordings` entry. -/
def deviceEmpty : DeviceStore := ⟨.ok none⟩

/-- Witness fixture: a device store whose read throws. -/
def deviceThrow : DeviceStore := ⟨.error ()⟩

/-- Witness fixture: a device store holding an unparseable entry. -/
def deviceCorrupt : DeviceStore := ⟨.ok (some "\x7bnot json")⟩

/-- Witness fixture: a codec that fails to parse anything. -/
def codecNoParse : Codec := ⟨fun _ => "x", fun _ => none⟩

/-! ## Helper lemmas -/

theorem db_id_inj {db : List Recording} (h : dbIdsUnique db) {q r : Recording}
    (hq : q ∈ db) (hr : r ∈ db) (hid : q.id = r.id) : q = r :=
  List.inj_on_of_nodup_map h hq hr hid

theorem mem_listRecordings (db : List Recording) (uid : String) (e : ListEntry) :
    e ∈ listRecordings db uid ↔ ∃ r, r ∈ db ∧ r.userId = uid ∧ e = listSelect r := by
  simp only [listRecordings, List.mem_map,
    (List.perm_insertionSort newestFirst _).mem_iff, List.mem_filter,
    decide_eq_true_eq]
  constructor
  · rintro ⟨r, ⟨hr, hu⟩, he⟩
    exact ⟨r, hr, hu, he.symm⟩
  · rintro ⟨r, hr, hu, he⟩
    exact ⟨r, ⟨hr, hu⟩, he.symm⟩

theorem listRecordings_pairwise (db : List Recording) (uid : String) :
    (listRecordings db uid).Pairwise (fun a b => b.createdAt ≤ a.createdAt) := by
  have hs := List.sorted_insertionSort newestFirst (db.filter (fun r => r.userId = uid))
  exact List.pairwise_map.2 hs

/-! ## C5: get-one does not leak other users' recordings -/

/-- C5: `GET /recordings/:id` for a row owned by a different user and for
an absent id both produce the same `NotFound` response, so existence of
other users' recordings does not leak. -/
theorem getOne_no_existence_leak (db : List Recording) (uid rid absentId : String)
    (hNodup : dbIdsUnique db) (r : Recording) (hr : r ∈ db) (hid : r.id = rid)
    (hother : r.userId ≠ uid) (habsent : ∀ q ∈ db, q.id ≠ absentId) :
    getOne db uid rid = GetOneResponse.notFound ∧
    getOne db uid absentId = GetOneResponse.notFound ∧
    getOne db uid rid = getOne db uid absentId := by
  have h1 : getOne db uid rid = GetOneResponse.notFound := by
    unfold getOne
    have : db.find? (fun q => q.id = rid && q.userId = uid) = none := by
      rw [List.find?_eq_none]
      intro q hq hpq
      simp only [Bool.and_eq_true, decide_eq_true_eq] at hpq
      have : q = r := db_id_inj hNodup hq hr (hpq.1.trans hid.symm)
      exact hother (this ▸ hpq.2)
    rw [this]
  have h2 : getOne db uid absentId = GetOneResponse.notFound := by
    unfold getOne
    have : db.find? (fun q => q.id = absentId && q.userId = uid) = none := by
      rw [List.find?_eq_none]
      intro q hq hpq
      simp only [Bool.and_eq_true, decide_eq_true_eq] at hpq
      exact habsent q hq hpq.1
    rw [this]
  exact ⟨h1, h2, h1.trans h2.symm⟩

theorem getOne_no_existence_leak_witness :
    getOne stTwo.db "u1" "r2" = GetOneResponse.notFound ∧
    getOne stTwo.db "u1" "zzz" = GetOneResponse.notFound ∧
    getOne stTwo.db "u1" "r2" = getOne stTwo.db "u1" "zzz" :=
  getOne_no_existence_leak stTwo.db "u1" "r2" "zzz"
    (by unfold dbIdsUnique; decide) rowW2
    (by decide) (by decide) (by decide) (by decide)

/-! ## C7: list endpoint scope, order, projection -/

/-- C7: `GET /recordings` returns exactly the caller's rows, pairwise
newest-first by `createdAt`, and each entry is the `select` projection,
which is independent of the `transcription` field (transcription is
omitted from list entries). -/
theorem listRecordings_scope_order_projection (db : List Recording) (uid : String) :
    (∀ e, e ∈ listRecordings db uid ↔
        ∃ r, r ∈ db ∧ r.userId = uid ∧ e = listSelect r) ∧
    (listRecordings db uid).Pairwise (fun a b => b.createdAt ≤ a.createdAt) ∧
    (∀ r t, listSelect { r with transcription := t } = listSelect r) :=
  ⟨fun e => mem_listRecordings db uid e, listRecordings_pairwise db uid,
   fun _ _ => rfl⟩

/-! ## C8: delete ownership check, row-only removal -/

/-- C8: delete performs the same ownership check as get-one (`NotFound`
in exactly the same cases); it never touches the blob store; and after a
successful delete the row is gone from the owner's get-one and list
results while every row of another user (and every row with a different
id) survives, and nothing new appears. -/
theorem deleteRecording_row_only (st : ServerState) (uid rid : String)
    (hNodup : dbIdsUnique st.db) :
    ((deleteRecording st uid rid).2 = DeleteResponse.notFound ↔
      getOne st.db uid rid = GetOneResponse.notFound) ∧
    (deleteRecording st uid rid).1.blobs = st.blobs ∧
    ((deleteRecording st uid rid).2 = DeleteResponse.deleted →
      getOne (deleteRecording st uid rid).1.db uid rid = GetOneResponse.notFound ∧
      (∀ e ∈ listRecordings (deleteRecording st uid rid).1.db uid, e.id ≠ rid) ∧
      (∀ r ∈ st.db, r.userId ≠ uid → r ∈ (deleteRecording st uid rid).1.db) ∧
      (∀ r ∈ st.db, r.id ≠ rid → r ∈ (deleteRecording st uid rid).1.db) ∧
      (∀ r ∈ (deleteRecording st uid rid).1.db, r ∈ st.db)) := by
  cases hfind : st.db.find? (fun r => r.id = rid && r.userId = uid) with
  | none =>
    simp only [deleteRecording, getOne, hfind]
    refine ⟨by simp, trivial, ?_⟩
    intro hcon
    exact absurd hcon (by simp)
  | some r0 =>
    have hp := List.find?_some hfind
    simp only [Bool.and_eq_true, decide_eq_true_eq] at hp
    have hmem := List.mem_of_find?_eq_some hfind
    simp only [deleteRecording, getOne, hfind]
    refine ⟨by simp, trivial, fun _ => ⟨?_, ?_, ?_, ?_, ?_⟩⟩
    · have : (st.db.filter (fun r => !(r.id = rid))).find?
          (fun r => r.id = rid && r.userId = uid) = none := by
        rw [List.find?_eq_none]
        intro q hq
        have hqid : ¬ (q.id = rid) := by
          have := List.of_mem_filter hq
          simpa using this
        simp [hqid]
      rw [this]
    · intro e he
      rcases (mem_listRecordings _ uid e).1 he with ⟨r, hr, _, hre⟩
      have hrid : ¬ (r.id = rid) := by
        have := List.of_mem_filter hr
        simpa using this
      subst hre
      simpa [listSelect] using hrid
    · intro q hq hqu
      apply List.mem_filter.2
      refine ⟨hq, ?_⟩
      simp only [Bool.not_eq_true', decide_eq_false_iff_not]
      intro hqid
      exact hqu ((db_id_inj hNodup hq hmem (hqid.trans hp.1.symm)) ▸ hp.2)
    · intro q hq hqid
      apply List.mem_filter.2
      exact ⟨hq, by simpa using hqid⟩
    · intro q hq
      exact List.mem_of_mem_filter hq

theorem deleteRecording_row_only_witness :
    (deleteRecording stTwo "u1" "r1").2 = DeleteResponse.deleted ∧
    getOne (deleteRecording stTwo "u1" "r1").1.db "u1" "r1" = GetOneResponse.notFound ∧
    rowW2 ∈ (deleteRecording stTwo "u1" "r1").1.db ∧
    (deleteRecording stTwo "u1" "r1").1.blobs = stTwo.blobs := by
  have h := deleteRecording_row_only stTwo "u1" "r1" (by unfold dbIdsUnique; decide)
  exact ⟨by decide, (h.2.2 (by decide)).1,
    (h.2.2 (by decide)).2.2.1 rowW2 (by decide) (by decide), h.2.1⟩

/-! ## C9: getRecordings is total and error-absorbing -/

/-- C9: `getRecordings` always returns a list (its Lean type is `List
LocalRecording`, not `Except`, mirroring that every throw is caught): a
missing entry gives `[]`, a throwing read gives `[]`, an unparseable
entry gives `[]`, and a well-formed non-empty entry gives the parsed
list. -/
theorem getRecordings_error_absorbing (c : Codec) (st : DeviceStore) :
    (st.item = .error () → getRecordings c st = []) ∧
    (st.item = .ok none → getRecordings c st = []) ∧
    (∀ s, st.item = .ok (some s) → c.parse s = none → getRecordings c st = []) ∧
    (∀ s l, st.item = .ok (some s) → s ≠ "" → c.parse s = some l →
      getRecordings c st = l) := by
  refine ⟨?_, ?_, ?_, ?_⟩
  · intro h; simp [getRecordings, h]
  · intro h; simp [getRecordings, h]
  · intro s h hp
    by_cases hs : s = "" <;> simp [getRecordings, h, hp, hs]
  · intro s l h hs hp
    simp [getRecordings, h, hp, hs]

theorem getRecordings_error_absorbing_witness :
    getRecordings codecW deviceThrow = [] ∧
    getRecordings codecW deviceEmpty = [] ∧
    getRecordings codecNoParse deviceCorrupt = [] ∧
    getRecordings codecW ⟨.ok (some "x")⟩ = [localRecW] :=
  ⟨(getRecordings_error_absorbing codecW deviceThrow).1 rfl,
   (getRecordings_error_absorbing codecW deviceEmpty).2.1 rfl,
   (getRecordings_error_absorbing codecNoParse deviceCorrupt).2.2.1
     "\x7bnot json" rfl rfl,
   (getRecordings_error_absorbing codecW ⟨.ok (some "x")⟩).2.2.2
     "x" [localRecW] rfl (by decide) rfl⟩

/-! ## C10: saveRecording prepends (round trip) -/

/-- C10: when `setItem` succeeds and the JSON runtime inverts its own
serialization of the new list (and serializes it to a non-empty string,
as `JSON.stringify` of an array always is), a `saveRecording` followed by
`getRecordings` yields the saved recording prepended to the previously
stored list, in its prior order. -/
theorem getRecordings_ok_some (c : Codec) (s : String) (l : List LocalRecording)
    (hs : s ≠ "") (hp : c.parse s = some l) :
    getRecordings c ⟨.ok (some s)⟩ = l := by
  simp [getRecordings, hs, hp]

theorem saveRecording_prepends (c : Codec) (st : DeviceStore) (r : LocalRecording)
    (hrt : c.parse (c.stringify (r :: getRecordings c st)) =
      some (r :: getRecordings c st))
    (hne : c.stringify (r :: getRecordings c st) ≠ "") :
    ∃ st2, saveRecording c true st r = .ok st2 ∧
      getRecordings c st2 = r :: getRecordings c st :=
  ⟨⟨.ok (some (c.stringify (r :: getRecordings c st)))⟩, rfl,
   getRecordings_ok_some c _ _ hne hrt⟩

theorem saveRecording_prepends_witness :
    ∃ st2, saveRecording codecW true deviceEmpty localRecW = .ok st2 ∧
      getRecordings codecW st2 = localRecW :: getRecordings codecW deviceEmpty :=
  saveRecording_prepends codecW deviceEmpty localRecW rfl (by decide)

/-! ## C6: title derivation (corrected) -/

/-- C6 counterexample: for a 60-character punctuation-free transcription,
the claimed derivation (trimmed first sentence truncated to the bound,
here `generateTitle`'s 50) yields the first 50 characters, but
`generateTitle` instead returns the first 50 characters of the whole
transcription, trimmed, with `'...'` appended — a different string. -/
theorem generateTitle_not_spec_truncation :
    generateTitle longSixty "1/1/2026" 50 ≠
      specTitle longSixty 50 "Recording 1/1/2026" := by
  decide

/-- C6 amended: the backend derivation is the trimmed first sentence
truncated to 100 characters, falling back to `'Untitled Recording'`
exactly when that string is empty (in particular for empty
transcription). Client-side `generateTitle` falls back to a dated generic
label when the transcription is empty or whitespace; it returns the
trimmed first sentence when that has length in `(0, maxLength]` (default
50), and otherwise — rather than truncating the first sentence — returns
the first `maxLength` characters of the whole transcription, trimmed,
with `'...'` appended. Both give `"Hello there"` for
`"Hello there. This is a test."` and a generic fallback for the empty
transcription. -/
theorem title_derivation_amended :
    backendTitle "Hello there. This is a test." = "Hello there" ∧
    (∀ d, generateTitle "Hello there. This is a test." d 50 = "Hello there") ∧
    backendTitle "" = "Untitled Recording" ∧
    (∀ d, generateTitle "" d 50 = "Recording " ++ d) ∧
    (∀ t, jsTake (firstSentenceTrimmed t) 100 ≠ "" →
      backendTitle t = jsTake (firstSentenceTrimmed t) 100) ∧
    (∀ t, jsTake (firstSentenceTrimmed t) 100 = "" →
      backendTitle t = "Untitled Recording") ∧
    (∀ t d, (jsTrim t).length ≠ 0 → 0 < (firstSentenceTrimmed t).length →
      (firstSentenceTrimmed t).length ≤ 50 →
      generateTitle t d 50 = firstSentenceTrimmed t) ∧
    (∀ t d, (jsTrim t).length ≠ 0 → 50 < (firstSentenceTrimmed t).length →
      generateTitle t d 50 = jsTrim (jsTake t 50) ++ "...") := by
  refine ⟨by decide, fun d => rfl, by decide, fun d => rfl, ?_, ?_, ?_, ?_⟩
  · intro t h
    simp only [backendTitle, if_neg h]
  · intro t h
    simp only [backendTitle, if_pos h]
  · intro t d h1 h2 h3
    simp only [generateTitle, if_neg h1, if_pos (And.intro h2 h3)]
  · intro t d h1 h2
    have hcon : ¬ (0 < (firstSentenceTrimmed t).length ∧
        (firstSentenceTrimmed t).length ≤ 50) := by
      rintro ⟨_, hle⟩
      exact absurd h2 (not_lt.2 hle)
    simp only [generateTitle, if_neg h1, if_neg hcon]

theorem title_derivation_amended_witness :
    backendTitle "Hi! more" = "Hi" ∧
    generateTitle "Hi! more" "d" 50 = "Hi" ∧
    generateTitle longSixty "d" 50 = jsTrim (jsTake longSixty 50) ++ "..." :=
  ⟨(title_derivation_amended.2.2.2.2.1 "Hi! more" (by decide)).trans (by decide),
   (title_derivation_amended.2.2.2.2.2.2.1 "Hi! more" "d" (by decide) (by decide)
     (by decide)).trans (by decide),
   title_derivation_amended.2.2.2.2.2.2.2 longSixty "d" (by decide) (by decide)⟩

/-! ## Pipeline helper lemmas -/

theorem rank_le_two (s : RecStatus) : s.rank ≤ 2 := by
  cases s <;> simp [RecStatus.rank]

theorem chain_rank_terminal {l : List RecStatus}
    (hc : l.Chain' (fun a b => a.rank < b.rank)) :
    ∀ l1 s l2, l = l1 ++ s :: l2 → s.rank = 2 → l2 = [] := by
  intro l1 s l2 heq hs
  cases l2 with
  | nil => rfl
  | cons t l2' =>
    subst heq
    have h2 := (List.chain'_append.mp hc).2.1
    have hrel := (List.chain'_cons.mp h2).1
    rw [hs] at hrel
    exact absurd hrel (not_lt.2 (rank_le_two t))

theorem dbSetStatus_dbSetStatus (db : List Recording) (rid : String)
    (s1 s2 : RecStatus) :
    dbSetStatus (dbSetStatus db rid s1) rid s2 = dbSetStatus db rid s2 := by
  simp only [dbSetStatus, List.map_map]
  apply List.map_congr_left
  intro r _
  by_cases h : r.id = rid <;> simp [Function.comp, h]

theorem statusWrites_nil (rid : String) : statusWrites rid [] = [] := rfl

theorem statusWrites_append (rid : String) (l1 l2 : List Event) :
    statusWrites rid (l1 ++ l2) = statusWrites rid l1 ++ statusWrites rid l2 :=
  List.filterMap_append l1 l2 _

theorem statusWrites_blobPut (rid k : String) (evs : List Event) :
    statusWrites rid (.blobPut k :: evs) = statusWrites rid evs := rfl

theorem statusWrites_rowCreate (rid i : String) (evs : List Event) :
    statusWrites rid (.rowCreate i :: evs) = statusWrites rid evs := rfl

theorem statusWrites_tempUnlink (rid : String) (evs : List Event) :
    statusWrites rid (.tempUnlink :: evs) = statusWrites rid evs := rfl

theorem statusWrites_respond (rid : String) (resp : HttpResponse) (evs : List Event) :
    statusWrites rid (.respond resp :: evs) = statusWrites rid evs := rfl

theorem statusWrites_statusUpdate (rid i : String) (s : RecStatus) (evs : List Event) :
    statusWrites rid (.statusUpdate i s :: evs) =
      (if i = rid then [s] else []) ++ statusWrites rid evs := by
  by_cases h : i = rid <;> simp [statusWrites, h]

theorem bg_statusWrites_shapes (benv : BgEnv) (db : List Recording)
    (rid0 fn : String) (rid : String) :
    statusWrites rid (processRecordingInBackground benv db rid0 fn).2 ∈
      ([[], [.failed], [.processing], [.processing, .failed],
        [.processing, .processed]] : List (List RecStatus)) := by
  by_cases hr : rid0 = rid <;>
    cases hp : benv.updProcessingOk <;>
    cases hpre : benv.presignOk <;>
    rcases htr : benv.transcribeResult with _ | text <;>
    rcases hsum : benv.summarizeResult with _ | co <;>
    cases hupd : benv.updProcessedOk <;>
    cases hmf : benv.markFailedOk <;>
    simp [processRecordingInBackground, bgCatch, statusWrites, hp, hpre, htr,
      hsum, hupd, hmf, hr]

theorem statusHistory_shapes (env : UploadEnv) (benv : BgEnv) (st : ServerState)
    (uid : String) (file : Option UploadFile) (d : Option Nat) (rid : String) :
    statusHistory rid (runUpload env benv st uid file d).events ∈
      ([[.uploaded], [.uploaded, .failed], [.uploaded, .processing],
        [.uploaded, .processing, .failed], [.uploaded, .processing, .processed]] :
        List (List RecStatus)) := by
  rcases file with _ | f
  · simp [runUpload, uploadHandler, statusHistory, statusWrites]
  cases hb : env.blobPutOk
  · simp [runUpload, uploadHandler, statusHistory, statusWrites, hb]
  rcases hc : env.createdId with _ | rid0
  · simp [runUpload, uploadHandler, statusHistory, statusWrites, hb, hc]
  cases hu : env.unlinkOk
  · by_cases hr : rid0 = rid <;> cases hmf : env.markFailedOk <;>
      simp [runUpload, uploadHandler, statusHistory, statusWrites, hb, hc, hu,
        hmf, hr]
  · have hbg := bg_statusWrites_shapes benv
      (⟨rid0, uid, "Processing...", "", "",
        toString env.timestamp ++
          (if env.extnameResult = "" then ".m4a" else env.extnameResult),
        ((d.getD 0 : Nat) : Int), .uploaded, env.createdAt⟩ :: st.db)
      rid0
      (toString env.timestamp ++
        (if env.extnameResult = "" then ".m4a" else env.extnameResult))
      rid
    simp only [List.mem_cons, List.not_mem_nil, or_false] at hbg
    have hev : statusHistory rid (runUpload env benv st uid (some f) d).events =
        RecStatus.uploaded :: statusWrites rid
          (processRecordingInBackground benv
            (⟨rid0, uid, "Processing...", "", "",
              toString env.timestamp ++
                (if env.extnameResult = "" then ".m4a" else env.extnameResult),
              ((d.getD 0 : Nat) : Int), .uploaded, env.createdAt⟩ :: st.db)
            rid0
            (toString env.timestamp ++
              (if env.extnameResult = "" then ".m4a" else env.extnameResult))).2 := by
      simp only [runUpload, uploadHandler, statusHistory, hb, hc, hu,
        Bool.not_true, Bool.false_eq_true, if_false, ite_false]
      rw [statusWrites_append, statusWrites_blobPut, statusWrites_rowCreate,
        statusWrites_tempUnlink, statusWrites_respond, statusWrites_nil]
      rfl
    rw [hev]
    rcases hbg with h | h | h | h | h <;> rw [h] <;> decide

/-! ## C1: status only moves forward -/

/-- C1: for any run of the upload handler plus its detached background
job that created a row, the row's persisted status sequence starts at
`uploaded`, every transition strictly increases the rank of the order
`uploaded → processing → {processed, failed}` (so no state is ever
revisited), and nothing follows a terminal (`processed`/`failed`)
status. -/
theorem status_only_moves_forward (env : UploadEnv) (benv : BgEnv)
    (st : ServerState) (uid : String) (file : Option UploadFile) (d : Option Nat)
    (rid : String) (hcr : (runUpload env benv st uid file d).created = some rid) :
    (statusHistory rid (runUpload env benv st uid file d).events).head? =
      some RecStatus.uploaded ∧
    (statusHistory rid (runUpload env benv st uid file d).events).Chain'
      (fun a b => a.rank < b.rank) ∧
    (∀ l1 s l2, statusHistory rid (runUpload env benv st uid file d).events =
      l1 ++ s :: l2 → s.rank = 2 → l2 = []) := by
  have hm := statusHistory_shapes env benv st uid file d rid
  simp only [List.mem_cons, List.not_mem_nil, or_false] at hm
  have hchain : (statusHistory rid (runUpload env benv st uid file d).events).Chain'
      (fun a b => a.rank < b.rank) := by
    rcases hm with h | h | h | h | h <;> rw [h] <;>
      simp [List.chain'_cons, List.chain'_singleton, RecStatus.rank]
  exact ⟨rfl, hchain, chain_rank_terminal hchain⟩

theorem status_only_moves_forward_witness :
    (statusHistory "r1" (runUpload envAllOk bgAllOk st0 "u1" (some fileW)
        (some 5)).events).head? = some RecStatus.uploaded ∧
    (statusHistory "r1" (runUpload envAllOk bgAllOk st0 "u1" (some fileW)
        (some 5)).events).Chain' (fun a b => a.rank < b.rank) := by
  have h := status_only_moves_forward envAllOk bgAllOk st0 "u1" (some fileW)
    (some 5) "r1" (by decide)
  exact ⟨h.1, h.2.1⟩

/-! ## C2: response precedes background processing -/

/-- C2: for a valid upload whose synchronous phase succeeds, the success
response body carries the new row's id, placeholder title,
`status=uploaded`, blob key, duration and `createdAt`; the respond event
strictly precedes every background event (the events of the run are the
four synchronous events followed by the background job's events); and the
response is the same whatever the background job's outcomes are — a
background failure never alters the already-sent response. -/
theorem response_before_background (env : UploadEnv) (benv benv2 : BgEnv)
    (st : ServerState) (uid : String) (f : UploadFile) (d : Option Nat)
    (rid : String) (hput : env.blobPutOk = true) (hcid : env.createdId = some rid)
    (hunl : env.unlinkOk = true) :
    ∃ body bgEvs,
      body = UploadOkBody.mk rid "Processing..." RecStatus.uploaded
          (toString env.timestamp ++
            (if env.extnameResult = "" then ".m4a" else env.extnameResult))
          ((d.getD 0 : Nat) : Int) env.createdAt ∧
      (runUpload env benv st uid (some f) d).response = .ok body ∧
      (runUpload env benv st uid (some f) d).events =
        [.blobPut body.audioUrl, .rowCreate rid, .tempUnlink,
          .respond (.ok body)] ++ bgEvs ∧
      (runUpload env benv st uid (some f) d).response =
        (runUpload env benv2 st uid (some f) d).response := by
  refine ⟨_, (processRecordingInBackground benv
      (⟨rid, uid, "Processing...", "", "",
        toString env.timestamp ++
          (if env.extnameResult = "" then ".m4a" else env.extnameResult),
        ((d.getD 0 : Nat) : Int), .uploaded, env.createdAt⟩ :: st.db)
      rid
      (toString env.timestamp ++
        (if env.extnameResult = "" then ".m4a" else env.extnameResult))).2,
    rfl, ?_, ?_, ?_⟩ <;>
    simp [runUpload, uploadHandler, hput, hcid, hunl]

theorem response_before_background_witness :
    ∃ body bgEvs,
      body = UploadOkBody.mk "r1" "Processing..." RecStatus.uploaded
          (toString envAllOk.timestamp ++
            (if envAllOk.extnameResult = "" then ".m4a" else envAllOk.extnameResult))
          (((some 5 : Option Nat).getD 0 : Nat) : Int) envAllOk.createdAt ∧
      (runUpload envAllOk bgTranscribeFail st0 "u1" (some fileW) (some 5)).response =
        .ok body ∧
      (runUpload envAllOk bgTranscribeFail st0 "u1" (some fileW) (some 5)).events =
        [.blobPut body.audioUrl, .rowCreate "r1", .tempUnlink,
          .respond (.ok body)] ++ bgEvs ∧
      (runUpload envAllOk bgTranscribeFail st0 "u1" (some fileW) (some 5)).response =
        (runUpload envAllOk bgAllOk st0 "u1" (some fileW) (some 5)).response :=
  response_before_background envAllOk bgTranscribeFail bgAllOk st0 "u1" fileW
    (some 5) "r1" rfl rfl rfl

/-! ## C3: blob write precedes row creation -/

/-- C3: whenever a run creates a row, its event sequence starts with the
blob write immediately followed by the row creation (blob write
happens-before row creation, and the written key is in the store); and
when the blob write fails on a request that did carry an audio part, the
handler responds `uploadFailed` and neither the table nor the blob store
changes — no row side effect. A blob can be left orphaned only in the
complementary case: blob write succeeded and row creation then failed,
where the response is `uploadFailed`, the table is unchanged, but the key
remains stored. -/
theorem blob_write_precedes_row_create (env : UploadEnv) (benv : BgEnv)
    (st : ServerState) (uid : String) (file : Option UploadFile) (d : Option Nat) :
    (∀ rid, (runUpload env benv st uid file d).created = some rid →
      ∃ key rest,
        (runUpload env benv st uid file d).events =
          .blobPut key :: .rowCreate rid :: rest ∧
        (runUpload env benv st uid file d).state.blobs = key :: st.blobs) ∧
    (env.blobPutOk = false → ∀ fl, file = some fl →
      (runUpload env benv st uid file d).response = .uploadFailed ∧
      (runUpload env benv st uid file d).state.db = st.db ∧
      (runUpload env benv st uid file d).state.blobs = st.blobs ∧
      (runUpload env benv st uid file d).created = none) ∧
    (env.blobPutOk = true → env.createdId = none → ∀ fl, file = some fl →
      (runUpload env benv st uid file d).response = .uploadFailed ∧
      (runUpload env benv st uid file d).state.db = st.db ∧
      (runUpload env benv st uid file d).state.blobs =
        (toString env.timestamp ++
          (if env.extnameResult = "" then ".m4a" else env.extnameResult))
          :: st.blobs ∧
      (runUpload env benv st uid file d).created = none) := by
  refine ⟨?_, ?_, ?_⟩
  · intro rid hcr
    rcases file with _ | f
    · simp [runUpload, uploadHandler] at hcr
    cases hb : env.blobPutOk
    · simp [runUpload, uploadHandler, hb] at hcr
    rcases hc : env.createdId with _ | rid0
    · simp [runUpload, uploadHandler, hb, hc] at hcr
    have hrid : rid0 = rid := by
      cases hu : env.unlinkOk <;>
        simp [runUpload, uploadHandler, hb, hc, hu] at hcr <;> exact hcr
    subst hrid
    cases hu : env.unlinkOk
    · cases hmf : env.markFailedOk
      · refine ⟨toString env.timestamp ++
            (if env.extnameResult = "" then ".m4a" else env.extnameResult),
          [.tempUnlink, .respond .uploadFailed], ?_, ?_⟩ <;>
          simp [runUpload, uploadHandler, hb, hc, hu, hmf]
      · refine ⟨toString env.timestamp ++
            (if env.extnameResult = "" then ".m4a" else env.extnameResult),
          [.tempUnlink, .statusUpdate rid0 .failed, .respond .uploadFailed],
          ?_, ?_⟩ <;>
          simp [runUpload, uploadHandler, hb, hc, hu, hmf]
    · refine ⟨toString env.timestamp ++
          (if env.extnameResult = "" then ".m4a" else env.extnameResult),
        [.tempUnlink,
          .respond (.ok (UploadOkBody.mk rid0 "Processing..." RecStatus.uploaded
            (toString env.timestamp ++
              (if env.extnameResult = "" then ".m4a" else env.extnameResult))
            ((d.getD 0 : Nat) : Int) env.createdAt))] ++
          (processRecordingInBackground benv
            (⟨rid0, uid, "Processing...", "", "",
              toString env.timestamp ++
                (if env.extnameResult = "" then ".m4a" else env.extnameResult),
              ((d.getD 0 : Nat) : Int), .uploaded, env.createdAt⟩ :: st.db)
            rid0
            (toString env.timestamp ++
              (if env.extnameResult = "" then ".m4a" else env.extnameResult))).2,
        ?_, ?_⟩ <;>
        simp [runUpload, uploadHandler, hb, hc, hu]
  · intro hb fl hf
    subst hf
    simp [runUpload, uploadHandler, hb]
  · intro hb hc fl hf
    subst hf
    simp [runUpload, uploadHandler, hb, hc]

theorem blob_write_precedes_row_create_witness :
    (runUpload envBlobFail bgAllOk st0 "u1" (some fileW) (some 5)).response =
      HttpResponse.uploadFailed ∧
    (runUpload envBlobFail bgAllOk st0 "u1" (some fileW) (some 5)).state.db =
      st0.db ∧
    (runUpload envBlobFail bgAllOk st0 "u1" (some fileW) (some 5)).state.blobs =
      st0.blobs ∧
    (runUpload envBlobFail bgAllOk st0 "u1" (some fileW) (some 5)).created = none :=
  (blob_write_precedes_row_create envBlobFail bgAllOk st0 "u1" (some fileW)
    (some 5)).2.1 rfl fileW rfl

/-! ## C4: a background failure only sets status=failed -/

/-- C4: if the background job fails in any step after the `processing`
transition (presigned URL, transcription, summarization, or the final
update), the resulting table equals the pre-processing table with only
row `rid`'s status replaced by `failed`: `title`, `summary` and
`transcription` keep their pre-processing placeholder values and every
other row is untouched. Moreover the background job never emits a
response event, so the error is swallowed (logged only) and can never
reach a client. -/
theorem bg_failure_only_sets_failed (benv : BgEnv) (db : List Recording)
    (rid fn : String) (hp : benv.updProcessingOk = true)
    (hm : benv.markFailedOk = true)
    (hfail : benv.presignOk = false ∨ benv.transcribeResult = none ∨
      benv.summarizeResult = none ∨ benv.updProcessedOk = false) :
    (processRecordingInBackground benv db rid fn).1 =
      db.map (fun r => if r.id = rid then { r with status := RecStatus.failed }
        else r) ∧
    (∀ resp, Event.respond resp ∉ (processRecordingInBackground benv db rid fn).2) := by
  constructor
  · have hres : (processRecordingInBackground benv db rid fn).1 =
        dbSetStatus (dbSetStatus db rid .processing) rid .failed := by
      cases hpre : benv.presignOk <;>
        rcases htr : benv.transcribeResult with _ | text <;>
        rcases hsum : benv.summarizeResult with _ | co <;>
        cases hupd : benv.updProcessedOk <;>
        first
          | (simp [processRecordingInBackground, bgCatch, hp, hm, hpre, htr,
              hsum, hupd]; done)
          | (exfalso; simp [hpre, htr, hsum, hupd] at hfail)
    rw [hres, dbSetStatus_dbSetStatus]
    rfl
  · intro resp
    cases hpre : benv.presignOk <;>
      rcases htr : benv.transcribeResult with _ | text <;>
      rcases hsum : benv.summarizeResult with _ | co <;>
      cases hupd : benv.updProcessedOk <;>
      simp [processRecordingInBackground, bgCatch, hp, hm, hpre, htr, hsum,
        hupd]

theorem bg_failure_only_sets_failed_witness :
    (processRecordingInBackground bgTranscribeFail [rowW] "r1" "1.m4a").1 =
      [{ rowW with status := RecStatus.failed }] := by
  have h := bg_failure_only_sets_failed bgTranscribeFail [rowW] "r1" "1.m4a"
    rfl rfl (Or.inr (Or.inl rfl))
  exact h.1.trans (by decide)
